import Mathlib

/-!
Verification of the binary mesh-chunk decoder of the Model_Assets repository
(`src/Tools/blender/io_import_simpson_game_fork.py`, with the test-variant
add-on `src/Tools/blender/test/io_import_simpson_game_addon-test/` where the
claims cite it).

The embedding follows the Python source closely:

* a file buffer is a `List Nat` of bytes;
* `file.read n` at cursor `c` returns the available bytes `(buf.drop c).take n`
  and advances the cursor by the number of bytes actually read — a read past
  the end of the file returns fewer (possibly zero) bytes and is not an error,
  exactly like CPython file objects and `io.BytesIO`;
* `int.from_bytes` accepts byte strings of any length, including the empty
  one (which yields 0), so header reads never raise;
* `struct.unpack` raises when the byte string is shorter than the format
  requires, so vertex reads can fail; this is modelled with `Option`;
* `float` values are modelled as `Option Rat`: `some q` is a finite float
  with exact rational value `q`, `none` is a NaN or infinity.  IEEE-754
  single-precision decoding of `>f` payloads is exact over `Rat`; the
  Python expression `1 - v` is modelled as exact rational subtraction.
-/

namespace SimpGame

/-- Big-endian `int.from_bytes`: fold of the byte list, most significant
byte first.  Accepts any number of bytes; the empty list gives 0. -/
def fromBE (l : List Nat) : Nat :=
  l.foldl (fun a b => a * 256 + b) 0

/-- Little-endian `int.from_bytes`: the big-endian value of the reversed
byte string. -/
def fromLE (l : List Nat) : Nat :=
  fromBE l.reverse

/-- Bytes returned by `file.read n` after `file.seek(p)`: at most `n` bytes
starting at offset `p`, fewer when the buffer ends earlier. -/
def pyRead (buf : List Nat) (p n : Nat) : List Nat :=
  (buf.drop p).take n

/-- A 4-byte big-endian unsigned read at an absolute offset
(`int.from_bytes(cur_file.read(4), byteorder='big')` after a seek). -/
def readU32BE (buf : List Nat) (p : Nat) : Nat :=
  fromBE (pyRead buf p 4)

/-- A 4-byte little-endian unsigned read at an absolute offset. -/
def readU32LE (buf : List Nat) (p : Nat) : Nat :=
  fromLE (pyRead buf p 4)

/-- One step of cursor-threaded reading: the bytes obtained and the new file
position.  Python advances the cursor only by the number of bytes actually
read, so a read at or past the end of the buffer leaves the cursor alone. -/
def readStep (buf : List Nat) (c n : Nat) : List Nat × Nat :=
  let b := pyRead buf c n
  (b, c + b.length)

/-! ## Triangle-strip conversion (`strip2face`) -/

/-- One triangle: an ordered triple of vertex indices. -/
abbrev Tri := Nat × Nat × Nat

/-- The loop body of `strip2face` (io_import_simpson_game_fork.py lines
350-361), written structurally: iteration `x` of the Python loop looks at
`strip[x], strip[x+1], strip[x+2]`, which are the first three elements of
`strip.drop x`.  A degenerate triple (two equal indices) emits nothing but
still toggles `flipped`; otherwise the triangle `(b, c, a)` is emitted when
not flipped and `(c, b, a)` when flipped, and `flipped` toggles. -/
def strip2faceLoop : List Nat → Bool → List Tri
  | a :: b :: c :: t, flipped =>
    if a = b ∨ a = c ∨ b = c then
      strip2faceLoop (b :: c :: t) (!flipped)
    else
      (if flipped then (c, b, a) else (b, c, a)) :: strip2faceLoop (b :: c :: t) (!flipped)
  | _, _ => []

/-- `strip2face` from io_import_simpson_game_fork.py lines 340-363: strips of
fewer than three indices yield no faces, otherwise the loop runs with
`flipped` initially false. -/
def strip2face (strip : List Nat) : List Tri :=
  if strip.length < 3 then [] else strip2faceLoop strip false

/-- Whether the consecutive triple at position `x` of `s` is degenerate
(two of the three indices equal), as tested by the source. -/
def degTriple (s : List Nat) (x : Nat) : Prop :=
  s.getD x 0 = s.getD (x + 1) 0 ∨ s.getD x 0 = s.getD (x + 2) 0 ∨
    s.getD (x + 1) 0 = s.getD (x + 2) 0

instance (s : List Nat) (x : Nat) : Decidable (degTriple s x) := by
  unfold degTriple; infer_instance

/-- The winding state the loop has at position `x` when it started in state
`f`: `flipped` toggles exactly once per position, degenerate or not. -/
def windAt (f : Bool) (x : Nat) : Bool :=
  if x % 2 = 0 then f else !f

/-- What the loop body emits at position `x` when the loop was started in
winding state `f`: nothing for a degenerate triple, otherwise the triple
with the winding given by the parity of `x`. -/
def emitAtF (s : List Nat) (f : Bool) (x : Nat) : Option Tri :=
  if degTriple s x then none
  else some (if windAt f x then (s.getD (x + 2) 0, s.getD (x + 1) 0, s.getD x 0)
             else (s.getD (x + 1) 0, s.getD (x + 2) 0, s.getD x 0))

/-- What `strip2face` emits at position `x`: `emitAtF` with the initial
(non-flipped) winding state. -/
def emitAt (s : List Nat) (x : Nat) : Option Tri :=
  emitAtF s false x

theorem windAt_succ (f : Bool) (x : Nat) : windAt f (x + 1) = windAt (!f) x := by
  unfold windAt
  rcases Nat.even_or_odd x with h | h
  · have h0 : x % 2 = 0 := Nat.even_iff.mp h
    have h1 : (x + 1) % 2 = 1 := by omega
    simp [h0, h1]
  · have h0 : x % 2 = 1 := Nat.odd_iff.mp h
    have h1 : (x + 1) % 2 = 0 := by omega
    simp [h0, h1]

theorem degTriple_cons (a : Nat) (s : List Nat) (x : Nat) :
    degTriple (a :: s) (x + 1) ↔ degTriple s x := by
  unfold degTriple
  simp [List.getD_cons_succ]

theorem emitAtF_cons (a : Nat) (s : List Nat) (f : Bool) (x : Nat) :
    emitAtF (a :: s) f (x + 1) = emitAtF s (!f) x := by
  unfold emitAtF
  rw [windAt_succ]
  by_cases h : degTriple s x
  · rw [if_pos ((degTriple_cons a s x).mpr h), if_pos h]
  · rw [if_neg (fun hh => h ((degTriple_cons a s x).mp hh)), if_neg h]
    simp [List.getD_cons_succ]

/-- Master description of the `strip2face` loop: the output is the
`filterMap` of the per-position emission function over all positions.  In
particular the winding used at position `x` depends only on the parity of
`x` (and on the initial state), not on how many earlier positions were
degenerate: a skipped degenerate triple still advances the winding state. -/
theorem strip2faceLoop_eq :
    ∀ (s : List Nat) (f : Bool),
      strip2faceLoop s f = (List.range (s.length - 2)).filterMap (emitAtF s f)
  | [], _ => rfl
  | [_], _ => rfl
  | [_, _], _ => rfl
  | a :: b :: c :: t, f => by
    have ih := strip2faceLoop_eq (b :: c :: t) (!f)
    have hlen : (a :: b :: c :: t).length - 2 = t.length + 1 := by
      simp
    have hlen2 : (b :: c :: t).length - 2 = t.length := by
      simp
    have hcomp : ∀ x, emitAtF (a :: b :: c :: t) f (x + 1) = emitAtF (b :: c :: t) (!f) x :=
      fun x => emitAtF_cons a (b :: c :: t) f x
    have hdeg0 : degTriple (a :: b :: c :: t) 0 ↔ (a = b ∨ a = c ∨ b = c) := by
      unfold degTriple; simp [List.getD]
    have hrange : List.range (t.length + 1) = 0 :: (List.range t.length).map Nat.succ :=
      List.range_succ_eq_map t.length
    have htail :
        ((List.range t.length).map Nat.succ).filterMap (emitAtF (a :: b :: c :: t) f)
          = (List.range t.length).filterMap (emitAtF (b :: c :: t) (!f)) := by
      rw [List.filterMap_map]
      exact List.filterMap_congr (fun x _ => hcomp x)
    rw [hlen, hrange]
    by_cases h : a = b ∨ a = c ∨ b = c
    · rw [strip2faceLoop, if_pos h, ih, hlen2]
      rw [List.filterMap_cons]
      have h0 : emitAtF (a :: b :: c :: t) f 0 = none := by
        unfold emitAtF
        rw [if_pos (hdeg0.mpr h)]
      rw [h0, htail]
    · rw [strip2faceLoop, if_neg h, ih, hlen2]
      rw [List.filterMap_cons]
      have h0 : emitAtF (a :: b :: c :: t) f 0
          = some (if f then (c, b, a) else (b, c, a)) := by
        unfold emitAtF
        rw [if_neg (fun hh => h (hdeg0.mp hh))]
        unfold windAt
        simp [List.getD]
      rw [h0, htail]

/-- The same description for `strip2face` itself (initial state
non-flipped). -/
theorem strip2face_eq_filterMap (s : List Nat) :
    strip2face s = (List.range (s.length - 2)).filterMap (emitAt s) := by
  unfold strip2face emitAt
  by_cases h : s.length < 3
  · have : s.length - 2 = 0 := by omega
    rw [if_pos h, this]
    rfl
  · rw [if_neg h]
    exact strip2faceLoop_eq s false

/-- No consecutive triple of `s` is degenerate. -/
def NoDegTriple (s : List Nat) : Prop :=
  ∀ x < s.length - 2, ¬ degTriple s x

instance (s : List Nat) : Decidable (NoDegTriple s) := by
  unfold NoDegTriple; infer_instance

/-- The triangle the claim expects at position `x` of strip `s`:
`(s[x+1], s[x+2], s[x])` at even positions, `(s[x+2], s[x+1], s[x])` at odd
ones. -/
def expectedTri (s : List Nat) (x : Nat) : Tri :=
  if x % 2 = 0 then (s.getD (x + 1) 0, s.getD (x + 2) 0, s.getD x 0)
  else (s.getD (x + 2) 0, s.getD (x + 1) 0, s.getD x 0)

theorem emitAt_of_nodeg (s : List Nat) (x : Nat) (hx : x < s.length - 2)
    (h : NoDegTriple s) : emitAt s x = some (expectedTri s x) := by
  unfold emitAt emitAtF expectedTri windAt
  rw [if_neg (h x hx)]
  by_cases hp : x % 2 = 0 <;> simp [hp]

/-! ## Splitting the index stream into strips -/

/-- The strip-splitting loop of `SimpGameImport.execute`
(io_import_simpson_game_fork.py lines 158-170): scan the index values left
to right keeping a current strip buffer `tmp`; at the sentinel 65535 close
the current strip, appending it to the strip list only when non-empty; at
the end of the input append the non-empty trailing strip. -/
def buildStripGo (tmp : List Nat) : List Nat → List (List Nat)
  | [] => if tmp.isEmpty then [] else [tmp]
  | i :: rest =>
    if i = 65535 then
      if tmp.isEmpty then buildStripGo [] rest else tmp :: buildStripGo [] rest
    else
      buildStripGo (tmp ++ [i]) rest

/-- The strip list built from a flat index stream, starting from an empty
current-strip buffer. -/
def buildStripList (indices : List Nat) : List (List Nat) :=
  buildStripGo [] indices

theorem buildStripGo_eq (l : List Nat) :
    ∀ tmp, buildStripGo tmp l
      = (((l.splitOn 65535).modifyHead (tmp ++ ·)).filter (fun s => !s.isEmpty)) := by
  induction l with
  | nil =>
    intro tmp
    simp only [buildStripGo, List.splitOn_nil, List.modifyHead, List.append_nil]
    by_cases h : tmp.isEmpty
    · simp [h, List.filter]
    · simp [h, List.filter]
  | cons i rest ih =>
    intro tmp
    by_cases hi : i = 65535
    · subst hi
      have hsplit : ((65535 : Nat) :: rest).splitOn 65535 = [] :: rest.splitOn 65535 := by
        simp [List.splitOn, List.splitOnP_cons]
      rw [hsplit]
      have hmod : (([] :: rest.splitOn 65535).modifyHead (tmp ++ ·))
          = tmp :: rest.splitOn 65535 := by
        simp [List.modifyHead]
      rw [hmod]
      have htail : buildStripGo [] rest
          = (rest.splitOn 65535).filter (fun s => !s.isEmpty) := by
        rw [ih []]
        have : (rest.splitOn 65535).modifyHead (([] : List Nat) ++ ·)
            = rest.splitOn 65535 := by
          cases h : rest.splitOn 65535 with
          | nil => rfl
          | cons a t => simp [List.modifyHead]
        rw [this]
      have hgo : buildStripGo tmp (65535 :: rest)
          = if tmp.isEmpty then buildStripGo [] rest else tmp :: buildStripGo [] rest := by
        simp [buildStripGo]
      rw [hgo]
      by_cases h : tmp.isEmpty
      · rw [if_pos h, htail]
        simp [List.filter_cons, h]
      · rw [if_neg h, htail]
        simp [List.filter_cons, h]
    · have hsplit : (i :: rest).splitOn 65535
          = (rest.splitOn 65535).modifyHead (i :: ·) := by
        simp [List.splitOn, List.splitOnP_cons, hi]
      rw [hsplit]
      have hmod : (((rest.splitOn 65535).modifyHead (i :: ·)).modifyHead (tmp ++ ·))
          = (rest.splitOn 65535).modifyHead ((tmp ++ [i]) ++ ·) := by
        rw [List.modifyHead_modifyHead]
        congr 1
        funext x
        simp
      rw [hmod]
      simp only [buildStripGo, if_neg hi]
      exact ih (tmp ++ [i])

/-- `buildStripList` is splitting on the sentinel with empty runs removed. -/
theorem buildStripList_eq (l : List Nat) :
    buildStripList l = (l.splitOn 65535).filter (fun s => !s.isEmpty) := by
  unfold buildStripList
  rw [buildStripGo_eq l []]
  cases h : l.splitOn 65535 with
  | nil => rfl
  | cons a t => simp [List.modifyHead]

theorem buildStripGo_sentinel_free :
    ∀ (l tmp : List Nat), (∀ j ∈ tmp, j ≠ 65535) →
      ∀ s ∈ buildStripGo tmp l, ∀ i ∈ s, i ≠ 65535 := by
  intro l
  induction l with
  | nil =>
    intro tmp htmp s hs i hi
    unfold buildStripGo at hs
    by_cases h : tmp.isEmpty
    · rw [if_pos h] at hs; cases hs
    · rw [if_neg h] at hs
      have : s = tmp := by simpa using hs
      exact htmp i (this ▸ hi)
  | cons j rest ih =>
    intro tmp htmp s hs i hi
    by_cases hj : j = 65535
    · subst hj
      have hgo : buildStripGo tmp (65535 :: rest)
          = if tmp.isEmpty then buildStripGo [] rest
            else tmp :: buildStripGo [] rest := by
        simp [buildStripGo]
      rw [hgo] at hs
      by_cases h : tmp.isEmpty
      · rw [if_pos h] at hs
        exact ih [] (by simp) s hs i hi
      · rw [if_neg h] at hs
        rcases List.mem_cons.mp hs with h1 | h1
        · exact htmp i (h1 ▸ hi)
        · exact ih [] (by simp) s h1 i hi
    · have hgo : buildStripGo tmp (j :: rest) = buildStripGo (tmp ++ [j]) rest := by
        simp [buildStripGo, hj]
      rw [hgo] at hs
      refine ih (tmp ++ [j]) ?_ s hs i hi
      intro a ha
      rcases List.mem_append.mp ha with h1 | h1
      · exact htmp a h1
      · simpa using (by simpa using h1) ▸ hj

/-- Every component of every triangle emitted by `strip2face` is an element
of the strip. -/
theorem strip2face_mem (s : List Nat) (t : Tri) (ht : t ∈ strip2face s) :
    t.1 ∈ s ∧ t.2.1 ∈ s ∧ t.2.2 ∈ s := by
  rw [strip2face_eq_filterMap] at ht
  obtain ⟨x, hx, hemit⟩ := List.mem_filterMap.mp ht
  have hxlt : x < s.length - 2 := List.mem_range.mp hx
  have h0 : x < s.length := by omega
  have h1 : x + 1 < s.length := by omega
  have h2 : x + 2 < s.length := by omega
  have m0 : s.getD x 0 ∈ s := by
    rw [List.getD_eq_getElem s 0 h0]; exact List.getElem_mem h0
  have m1 : s.getD (x + 1) 0 ∈ s := by
    rw [List.getD_eq_getElem s 0 h1]; exact List.getElem_mem h1
  have m2 : s.getD (x + 2) 0 ∈ s := by
    rw [List.getD_eq_getElem s 0 h2]; exact List.getElem_mem h2
  unfold emitAt emitAtF at hemit
  by_cases hd : degTriple s x
  · rw [if_pos hd] at hemit; cases hemit
  · rw [if_neg hd] at hemit
    have heq := Option.some.inj hemit
    by_cases hw : windAt false x
    · rw [if_pos hw] at heq
      rw [← heq]
      exact ⟨m2, m1, m0⟩
    · rw [if_neg hw] at heq
      rw [← heq]
      exact ⟨m1, m2, m0⟩

/-! ## Claim theorems for the strip decoder -/

/-- C1: for every strip of length at least 3 with no degenerate consecutive
triple, `strip2face` returns exactly `L - 2` triangles, and the triangle at
position `x` is `(s[x+1], s[x+2], s[x])` for even `x` and
`(s[x+2], s[x+1], s[x])` for odd `x` (winding alternates, starting
non-flipped). -/
theorem claim1_strip2face_nodeg (s : List Nat) (_h3 : 3 ≤ s.length)
    (hnd : NoDegTriple s) :
    (strip2face s).length = s.length - 2 ∧
      ∀ x < s.length - 2, (strip2face s).getD x (0, 0, 0) = expectedTri s x := by
  have hmap : strip2face s = (List.range (s.length - 2)).map (expectedTri s) := by
    rw [strip2face_eq_filterMap]
    rw [List.filterMap_congr
      (fun x hx => emitAt_of_nodeg s x (List.mem_range.mp hx) hnd)]
    rw [show (fun x => some (expectedTri s x)) = some ∘ expectedTri s from rfl]
    exact List.filterMap_eq_map (expectedTri s) ▸ rfl
  constructor
  · rw [hmap, List.length_map, List.length_range]
  · intro x hx
    rw [hmap]
    have hlt : x < ((List.range (s.length - 2)).map (expectedTri s)).length := by
      rw [List.length_map, List.length_range]; exact hx
    rw [List.getD_eq_getElem _ _ hlt, List.getElem_map, List.getElem_range]

/-- Witness for C1 at the concrete strip `[1, 2, 3, 4, 5]`. -/
theorem claim1_strip2face_nodeg_witness :
    3 ≤ ([1, 2, 3, 4, 5] : List Nat).length ∧ NoDegTriple [1, 2, 3, 4, 5] ∧
      ((strip2face [1, 2, 3, 4, 5]).length = ([1, 2, 3, 4, 5] : List Nat).length - 2 ∧
        ∀ x < ([1, 2, 3, 4, 5] : List Nat).length - 2,
          (strip2face [1, 2, 3, 4, 5]).getD x (0, 0, 0) = expectedTri [1, 2, 3, 4, 5] x) :=
  ⟨by decide, by decide, claim1_strip2face_nodeg [1, 2, 3, 4, 5] (by decide) (by decide)⟩

/-- C2: a degenerate consecutive triple emits no triangle but still toggles
the winding state: the output of `strip2face` is the `filterMap` of a
per-position emitter whose winding depends only on the parity of the
position, so the next non-degenerate position uses the winding it would
have had if a triangle had been emitted.  In particular for the strip
`[0, 0, 1, 2, 3]` position 0 is skipped and the triangle produced at
position 1 from indices `(0, 1, 2)` uses the flipped winding `(2, 1, 0)`. -/
theorem claim2_degenerate_skip_toggles :
    (∀ (s : List Nat) (x : Nat), degTriple s x → emitAt s x = none) ∧
      (∀ s : List Nat, strip2face s = (List.range (s.length - 2)).filterMap (emitAt s)) ∧
      strip2face [0, 0, 1, 2, 3] = [(2, 1, 0), (2, 3, 1)] :=
  ⟨fun s x h => by unfold emitAt emitAtF; rw [if_pos h],
   strip2face_eq_filterMap, by decide⟩

/-- C5: the split phase closes the current strip at each sentinel 65535,
keeping only non-empty runs, and keeps a non-empty trailing run; this is
exactly splitting on the sentinel and dropping empty pieces, and on the
stream `[1,2,3,65535,4,5,65535,65535,6,7,8]` it yields the three strips
`[1,2,3]`, `[4,5]`, `[6,7,8]`. -/
theorem claim5_split_on_sentinel :
    (∀ l : List Nat, buildStripList l = (l.splitOn 65535).filter (fun s => !s.isEmpty)) ∧
      buildStripList [1, 2, 3, 65535, 4, 5, 65535, 65535, 6, 7, 8]
        = [[1, 2, 3], [4, 5], [6, 7, 8]] :=
  ⟨buildStripList_eq, by decide⟩

/-- C10: no strip produced by the split phase contains the sentinel 65535,
and therefore no vertex index of any triangle emitted from such a strip is
65535. -/
theorem claim10_strips_sentinel_free (l s : List Nat) (h : s ∈ buildStripList l) :
    (∀ i ∈ s, i ≠ 65535) ∧
      ∀ t ∈ strip2face s, t.1 ≠ 65535 ∧ t.2.1 ≠ 65535 ∧ t.2.2 ≠ 65535 := by
  have hfree : ∀ i ∈ s, i ≠ 65535 :=
    buildStripGo_sentinel_free l [] (by simp) s h
  refine ⟨hfree, ?_⟩
  intro t ht
  obtain ⟨m0, m1, m2⟩ := strip2face_mem s t ht
  exact ⟨hfree _ m0, hfree _ m1, hfree _ m2⟩

/-- Witness for C10 at the concrete stream `[7, 8, 9]`, whose single strip
is `[7, 8, 9]`. -/
theorem claim10_strips_sentinel_free_witness :
    (∀ i ∈ ([7, 8, 9] : List Nat), i ≠ 65535) ∧
      ∀ t ∈ strip2face [7, 8, 9], t.1 ≠ 65535 ∧ t.2.1 ≠ 65535 ∧ t.2.2 ≠ 65535 :=
  claim10_strips_sentinel_free [7, 8, 9] [7, 8, 9] (by decide)

/-! ## Floats

A Python float is modelled as `Option Rat`: `some q` is a finite value with
exact rational value `q`, `none` is a NaN or an infinity.  Every finite
IEEE-754 single-precision value is a rational number, and the decoding
below is exact. -/

/-- A Python float value. -/
abbrev PyFloat := Option ℚ

/-- Exact decoding of a big-endian IEEE-754 single-precision payload
(struct format `>f`): 1 sign bit, 8 exponent bits, 23 fraction bits.
Exponent 255 encodes NaN and the infinities (`none`); exponent 0 the
subnormals, `frac * 2 ^ (-149)`; otherwise the significand `2 ^ 23 + frac`
is scaled by `2 ^ (e - 150)`.  Only `mkRat` and natural arithmetic are
used so that concrete values reduce. -/
def decodeF32 (b : List Nat) : PyFloat :=
  let bits : Nat := fromBE b
  let sgn : Nat := bits / 2 ^ 31 % 2
  let e : Nat := bits / 2 ^ 23 % 256
  let f : Nat := bits % 2 ^ 23
  if e = 255 then none
  else
    let mag : ℚ :=
      if e = 0 then mkRat (f : Int) (2 ^ 149)
      else if 150 ≤ e then mkRat (((2 ^ 23 + f) * 2 ^ (e - 150) : Nat) : Int) 1
      else mkRat ((2 ^ 23 + f : Nat) : Int) (2 ^ (150 - e))
    some (if sgn = 0 then mag else -mag)

/-- The Python expression `1 - v` on a float: finite values subtract
exactly, NaN and the infinities stay non-finite. -/
def oneMinus (v : PyFloat) : PyFloat :=
  v.map (fun q => 1 - q)

/-- `struct.unpack('>ff', cur_file.read(8))` after an absolute seek:
raises `struct.error` (here `none`) unless all 8 bytes are available. -/
def unpack2F (buf : List Nat) (p : Nat) : Option (PyFloat × PyFloat) :=
  let b := pyRead buf p 8
  if b.length = 8 then some (decodeF32 (b.take 4), decodeF32 (b.drop 4)) else none

/-- `struct.unpack('>fff', cur_file.read(12))` after an absolute seek. -/
def unpack3F (buf : List Nat) (p : Nat) : Option (PyFloat × PyFloat × PyFloat) :=
  let b := pyRead buf p 12
  if b.length = 12 then
    some (decodeF32 (b.take 4), decodeF32 ((b.drop 4).take 4), decodeF32 (b.drop 8))
  else none

/-- A seek to a possibly negative target followed by
`struct.unpack('>ff', ...)`: Python raises on a negative seek target
(`OSError`), modelled as `none`. -/
def unpack2FAt (buf : List Nat) (p : Int) : Option (PyFloat × PyFloat) :=
  if p < 0 then none else unpack2F buf p.toNat

/-! ## Vertex stream (fork, io_import_simpson_game_fork.py lines 183-198) -/

/-- A vertex position. -/
abbrev Vec3 := PyFloat × PyFloat × PyFloat

/-- A UV pair. -/
abbrev UVPair := PyFloat × PyFloat

/-- One iteration of the fork vertex loop for vertex `v`: three big-endian
f32 at `VertexStart + v * VertChunkSize` (position), a pair at
`... + VertChunkSize - 16` (uv0) and a pair at `... + VertChunkSize - 8`
(uv1, the "CM" channel), both stored with the V coordinate inverted.  A
short read makes `struct.unpack` raise and a negative offset makes `seek`
raise; either failure aborts the iteration (`none`). -/
def readVertexFork (buf : List Nat) (vs stride v : Nat) :
    Option (Vec3 × UVPair × UVPair) := do
  let pos ← unpack3F buf (vs + v * stride)
  let uv ← unpack2FAt buf ((vs + v * stride + stride : Int) - 16)
  let cm ← unpack2FAt buf ((vs + v * stride + stride : Int) - 8)
  pure (pos, (uv.1, oneMinus uv.2), (cm.1, oneMinus cm.2))

/-- The fork vertex loop over a list of vertex indices: the whole loop is
wrapped in one `try`, so the first failing vertex aborts the entire
vertex stream of the sub-mesh (the partially-filled tables are abandoned
and the sub-mesh is skipped with `continue`). -/
def forkVertsGo (buf : List Nat) (vs stride : Nat) :
    List Nat → Option (List (Vec3 × UVPair × UVPair))
  | [] => some []
  | v :: rest => do
    let e ← readVertexFork buf vs stride v
    let t ← forkVertsGo buf vs stride rest
    pure (e :: t)

/-- The three tables `VertTable`, `UVTable`, `CMTable` built by the fork
vertex loop, or `none` when any vertex read raised. -/
def forkVertexTables (buf : List Nat) (vs stride n : Nat) :
    Option (List Vec3 × List UVPair × List UVPair) :=
  (forkVertsGo buf vs stride (List.range n)).map
    (fun l => (l.map (·.1), l.map (·.2.1), l.map (·.2.2)))

/-! ## Face-index stream (fork, lines 157-170) -/

/-- The face-index read loop: `FaceCount` 2-byte big-endian reads starting
at `FaceStart`, threading the file cursor.  A read past the end of the
buffer returns the remaining bytes (none at EOF, whose `int.from_bytes`
value is 0) and advances the cursor only by what was read; it is not an
error, so no clamping of `FaceCount` ever happens in the fork. -/
def readIndicesGo (buf : List Nat) (c : Nat) : Nat → List Nat
  | 0 => []
  | n + 1 =>
    let r := readStep buf c 2
    fromBE r.1 :: readIndicesGo buf r.2 n

/-- The flat index stream the fork reads for one sub-mesh. -/
def forkReadIndices (buf : List Nat) (faceStart faceCount : Nat) : List Nat :=
  readIndicesGo buf faceStart faceCount

/-! ## Mesh emission (fork lines 201-239, test-variant import.py lines
261-331) -/

/-- An object linked into the caller's collection: the final vertex and
face content of its mesh data block. -/
structure MeshObj where
  verts : List Vec3
  faces : List Tri
deriving DecidableEq

/-- The triangles whose three indices are all in range for the vertex
table: both variants check `0 <= idx < len(bm.verts)` before
`bm.faces.new` and skip the face otherwise.  (Failures of `bm.faces.new`
itself, e.g. a duplicate face, are caught and skipped as well and are not
modelled.) -/
def validFaces (vt : List Vec3) (ft : List Tri) : List Tri :=
  ft.filter (fun t =>
    decide (t.1 < vt.length) && decide (t.2.1 < vt.length) && decide (t.2.2 < vt.length))

/-- The object the fork links into the collection for one sub-mesh that
reached the emission code: the object is created and linked *before* any
emptiness check, so exactly one object is always produced; when no valid
face exists, `bm.to_mesh` is skipped (`continue`), leaving the linked
object with an empty mesh data block. -/
def forkObj (vt : List Vec3) (ft : List Tri) : MeshObj :=
  if (validFaces vt ft).isEmpty then ⟨[], []⟩ else ⟨vt, validFaces vt ft⟩

/-- Objects the fork adds to the collection for one sub-mesh: always one. -/
def forkEmitObjs (vt : List Vec3) (ft : List Tri) : List MeshObj :=
  [forkObj vt ft]

/-- Objects the test variant adds to the collection for one sub-mesh
(import.py lines 261-331): none when the vertex or face table is empty
(`continue` before the object is created), and the object is unlinked and
removed again when no valid face could be created. -/
def testEmitObjs (vt : List Vec3) (ft : List Tri) : List MeshObj :=
  if vt.isEmpty || ft.isEmpty then []
  else if (validFaces vt ft).isEmpty then []
  else [⟨vt, validFaces vt ft⟩]

/-! ## Sub-mesh decode (fork, lines 134-239)

Each sub-mesh iteration starts with an absolute seek
(`cur_file.seek(mDataSubStart + i * 0xC + 8)`), so the iterations are
independent of one another and every field below is a pure read at a
computed absolute offset. -/

/-- The 4-byte relative offset read from the sub-mesh descriptor table
entry `i` (at `mDataSubStart + i * 0xC + 8`). -/
def subOffsetField (buf : List Nat) (subStart i : Nat) : Nat :=
  readU32BE buf (subStart + i * 12 + 8)

/-- `VertCountDataOff`: the big-endian u32 at
`offset + MeshChunkStart + 0xC`, plus `MeshChunkStart`. -/
def vertCountDataOff (buf : List Nat) (ms subStart i : Nat) : Nat :=
  readU32BE buf (subOffsetField buf subStart i + ms + 12) + ms

/-- `VertChunkSize`, the per-vertex stride: the big-endian u32 four bytes
after `VertCountDataOff`.  An unsigned read, so never negative. -/
def strideField (buf : List Nat) (ms subStart i : Nat) : Nat :=
  readU32BE buf (vertCountDataOff buf ms subStart i + 4)

/-- Decode of one sub-mesh (descriptor chase, face-index read, strip
conversion, vertex read, emission).  `none` means the sub-mesh was skipped
by one of the two reachable exception paths of the fork: a stride field of
0 makes `int(VertChunkTotalSize / VertChunkSize)` raise `ZeroDivisionError`
(caught, `continue` to the next sub-mesh), and a failed vertex unpack
raises `struct.error` (caught, `continue`).  For 32-bit operand values the
Python truncations `int(a / b)` and `int(a / 2)` agree with natural-number
division, which is used here.  Field offsets relative to
`VertCountDataOff`: total size +0, stride +4, vertex start +16 (after the
8 skipped bytes), raw face count +40 (after the 0x14 skipped bytes), face
start +48. -/
def subMeshFork (buf : List Nat) (ms fdo subStart i : Nat) : Option MeshObj :=
  let vcdo := vertCountDataOff buf ms subStart i
  let total := readU32BE buf vcdo
  let stride := strideField buf ms subStart i
  if stride = 0 then none
  else
    let vcount := total / stride
    let vstart := readU32BE buf (vcdo + 16) + fdo + ms
    let fcount := readU32BE buf (vcdo + 40) / 2
    let fstart := readU32BE buf (vcdo + 48) + fdo + ms
    let strips := buildStripList (forkReadIndices buf fstart fcount)
    let ftable := (strips.map strip2face).flatten
    match forkVertexTables buf vstart stride vcount with
    | none => none
    | some (vt, _, _) => some (forkObj vt ftable)

/-- All objects one chunk contributes: the sub-mesh loop over
`range mDataSubCount`, keeping the emitted objects in index order. -/
def chunkSubObjs (buf : List Nat) (ms fdo subStart count : Nat) : List MeshObj :=
  (List.range count).filterMap (subMeshFork buf ms fdo subStart)

/-! ## Chunk header (fork, lines 113-132) -/

/-- The values and file positions produced by the chunk-header read. -/
structure ChunkHdr where
  fdo : Nat
  mds : Nat
  ms : Nat
  tableCount : Nat
  subCount : Nat
  subCountPos : Nat
  subStart : Nat
deriving DecidableEq

/-- Skipping the `mDataTableCount`-entry table: each iteration seeks 4
bytes forward (always moves the cursor) and then reads 4 bytes (moves the
cursor only by the bytes actually available). -/
def tableSkip (buf : List Nat) (c : Nat) : Nat → Nat
  | 0 => c
  | n + 1 => tableSkip buf (c + 4 + (pyRead buf (c + 4) 4).length) n

/-- The chunk-header read of `SimpGameImport.execute`, starting 4 bytes
after the end `e` of the signature match: `FaceDataOff` (u32 LE),
`MeshDataSize` (u32 LE), `MeshChunkStart` = the cursor after those reads,
a 0x14-byte relative seek, `mDataTableCount` (u32 BE), `mDataSubCount`
(u32 BE), then the table skip to `mDataSubStart`.  All reads go through
`int.from_bytes`, which accepts short byte strings (empty reads give 0),
so none of these reads can raise and the except branch of the fork (which
logs and returns CANCELLED) is unreachable for buffer-bounds reasons. -/
def forkChunkHdr (buf : List Nat) (e : Nat) : ChunkHdr :=
  let r1 := readStep buf (e + 4) 4
  let r2 := readStep buf r1.2 4
  let ms := r2.2
  let r3 := readStep buf (ms + 0x14) 4
  let r4 := readStep buf r3.2 4
  { fdo := fromLE r1.1
    mds := fromLE r2.1
    ms := ms
    tableCount := fromBE r3.1
    subCount := fromBE r4.1
    subCountPos := r3.2
    subStart := tableSkip buf r4.2 (fromBE r3.1) }

/-- Everything one chunk (one signature match, ending at `e`) contributes
to the collection. -/
def chunkFork (buf : List Nat) (e : Nat) : List MeshObj :=
  let h := forkChunkHdr buf e
  chunkSubObjs buf h.ms h.fdo h.subStart h.subCount

/-! ## Signature scan (fork, line 110) -/

/-- Whether the 12-byte pattern `33 EA 00 00 ?? ?? ?? ?? 2D 00 02 1C`
matches at offset `i`: the four wildcard bytes match anything
(`re.DOTALL`), but all 12 bytes must exist in the buffer. -/
def sigAt (buf : List Nat) (i : Nat) : Bool :=
  decide (i + 12 ≤ buf.length) &&
    (buf.getD i 0 == 0x33) && (buf.getD (i + 1) 0 == 0xEA) &&
    (buf.getD (i + 2) 0 == 0x00) && (buf.getD (i + 3) 0 == 0x00) &&
    (buf.getD (i + 8) 0 == 0x2D) && (buf.getD (i + 9) 0 == 0x00) &&
    (buf.getD (i + 10) 0 == 0x02) && (buf.getD (i + 11) 0 == 0x1C)

/-- Left-to-right non-overlapping scan for signature matches, collecting
match *end* offsets (`x.end()`), as `mshBytes.finditer` does: after a
match the scan resumes at its end.  The fuel argument only bounds the
recursion; any fuel of at least `buf.length - i` gives the full scan. -/
def findSigEndsGo (buf : List Nat) : Nat → Nat → List Nat
  | 0, _ => []
  | fuel + 1, i =>
    if buf.length ≤ i then []
    else if sigAt buf i then (i + 12) :: findSigEndsGo buf fuel (i + 12)
    else findSigEndsGo buf fuel (i + 1)

/-- The end offsets of all signature matches of the buffer. -/
def matchEnds (buf : List Nat) : List Nat :=
  findSigEndsGo buf buf.length 0

/-- The whole fork decode: every signature match contributes its chunk's
objects, in match order.  Total by construction: nothing in the decode of
one chunk can abort the decode of another. -/
def forkDecode (buf : List Nat) : List MeshObj :=
  ((matchEnds buf).map (chunkFork buf)).flatten

/-! ## Claim theorems for the binary layer -/

theorem filterMap_of_erased {α β : Type} [DecidableEq α] (l : List α) (f : α → Option β)
    (i : α) (h : f i = none) :
    (l.filter (fun j => j ≠ i)).filterMap f = l.filterMap f := by
  induction l with
  | nil => rfl
  | cons a t ih =>
    rw [List.filter_cons]
    by_cases ha : a = i
    · rw [if_neg (by simp [ha]), ih, ha, List.filterMap_cons, h]
    · rw [if_pos (by simp [ha]), List.filterMap_cons, List.filterMap_cons, ih]

theorem subMeshFork_none_of_stride_zero (buf : List Nat) (ms fdo subStart i : Nat)
    (hz : strideField buf ms subStart i = 0) :
    subMeshFork buf ms fdo subStart i = none := by
  unfold subMeshFork
  rw [hz]
  rfl

/-- C8: a sub-mesh whose per-vertex stride field reads as zero is skipped
— `int(VertChunkTotalSize / VertChunkSize)` raises `ZeroDivisionError`,
which the per-sub-mesh handler catches, logs and answers with `continue`
— and the chunk still decodes exactly the sub-meshes of the other
indices; the skip is never fatal to the chunk or the file.  (The stride
is an unsigned 32-bit read, so a negative value cannot occur.) -/
theorem claim8_zero_stride_skips_submesh (buf : List Nat) (ms fdo subStart count i : Nat)
    (_hi : i < count) (hz : strideField buf ms subStart i = 0) :
    subMeshFork buf ms fdo subStart i = none ∧
      chunkSubObjs buf ms fdo subStart count
        = ((List.range count).filter (fun j => j ≠ i)).filterMap
            (subMeshFork buf ms fdo subStart) := by
  have h0 := subMeshFork_none_of_stride_zero buf ms fdo subStart i hz
  exact ⟨h0, (filterMap_of_erased (List.range count) _ i h0).symm⟩

/-- Witness for C8 on the empty buffer, where every field of sub-mesh 0
reads as zero. -/
theorem claim8_zero_stride_skips_submesh_witness :
    (0 : Nat) < 1 ∧ strideField [] 0 0 0 = 0 ∧
      (subMeshFork [] 0 0 0 0 = none ∧
        chunkSubObjs [] 0 0 0 1
          = ((List.range 1).filter (fun j => j ≠ 0)).filterMap (subMeshFork [] 0 0 0)) :=
  ⟨by decide, by decide, claim8_zero_stride_skips_submesh [] 0 0 0 1 0 (by decide) (by decide)⟩

/-- Counterexample to C9: a sub-mesh whose decoded vertex list and
triangle list are both empty still puts one (empty) mesh object into the
caller's collection — the fork creates and links the object before any
emptiness check; the check only skips UV assignment and `bm.to_mesh`. -/
theorem claim9_counterexample : forkEmitObjs [] [] ≠ [] := by decide

/-- C9 amended: only the test variant skips emission when the decoded
vertex list or triangle list is empty; the fork always links exactly one
object per sub-mesh that reaches the emission code, so objects with empty
meshes do reach its caller's collection. -/
theorem claim9_amended_empty_emission :
    (∀ (vt : List Vec3) (ft : List Tri), vt = [] ∨ ft = [] → testEmitObjs vt ft = []) ∧
      ∀ (vt : List Vec3) (ft : List Tri), (forkEmitObjs vt ft).length = 1 := by
  constructor
  · intro vt ft h
    unfold testEmitObjs
    rcases h with h | h <;> subst h <;> simp
  · intro vt ft
    rfl

/-- Witness for C9 (amended) at empty tables. -/
theorem claim9_amended_empty_emission_witness : testEmitObjs [] [] = [] :=
  claim9_amended_empty_emission.1 [] [] (Or.inl rfl)

/-- C4 at a failing input: a 14-byte buffer with `FaceStart` 10 and
`FaceCount` 4.  The claim (and the clamping block of the test variant,
which never runs because its module raises `IndentationError` at exactly
those lines) requires clamping the count to `(14 - 10) / 2 = 2`; the
runnable fork decoder performs no clamping and reads all 4 indices, the
reads past the end of the buffer yielding spurious 0-valued indices. -/
theorem claim4_fork_reads_unclamped :
    forkReadIndices (List.replicate 10 0 ++ [0, 1, 0, 2]) 10 4 = [1, 2, 0, 0] ∧
      ((List.replicate 10 0 ++ [0, 1, 0, 2] : List Nat).length - 10) / 2 = 2 := by
  decide

/-- Counterexample to C6: with a 12-byte buffer and stride 16, vertex 0
has its position bytes (0..12) and its uv0 bytes (0..8) available, but
the uv1 read needs bytes 8..16 and fails; the fork then aborts the whole
vertex stream instead of substituting (0.0, 0.0) for the missing field
and keeping the vertex. -/
theorem claim6_counterexample :
    forkVertexTables (List.replicate 12 0) 0 16 1 = none := by rfl

theorem forkVertsGo_none (buf : List Nat) (vs stride : Nat) :
    ∀ (l : List Nat) (v : Nat), v ∈ l → readVertexFork buf vs stride v = none →
      forkVertsGo buf vs stride l = none := by
  intro l
  induction l with
  | nil => intro v hv; cases hv
  | cons a t ih =>
    intro v hv hnone
    rcases List.mem_cons.mp hv with h | h
    · subst h
      simp [forkVertsGo, hnone]
    · unfold forkVertsGo
      cases ha : readVertexFork buf vs stride a
      · rfl
      · simp [ha, ih v h hnone]

/-- C6 amended: in the fork, insufficient remaining bytes for any field of
any vertex (or a negative uv offset from a small stride) raises inside the
single `try` around the vertex loop, and the whole vertex stream of the
sub-mesh is abandoned — the sub-mesh is skipped rather than patched with a
(0.0, 0.0) substitute.  (Only the unloadable test variant substitutes, and
it substitutes the raw pair before the V-flip, storing (0.0, 1.0).) -/
theorem claim6_amended_bad_vertex_aborts (buf : List Nat) (vs stride n v : Nat)
    (hv : v < n) (hfail : readVertexFork buf vs stride v = none) :
    forkVertexTables buf vs stride n = none := by
  unfold forkVertexTables
  rw [forkVertsGo_none buf vs stride (List.range n) v (List.mem_range.mpr hv) hfail]
  rfl

/-- Witness for C6 (amended) on the empty buffer. -/
theorem claim6_amended_bad_vertex_aborts_witness :
    forkVertexTables [] 0 16 1 = none :=
  claim6_amended_bad_vertex_aborts [] 0 16 1 0 (by decide) (by rfl)

/-- A 50-byte buffer with one signature match (bytes 0..12, match end 12).
The header layout behind it: 4 skipped bytes (12..16), `FaceDataOff` = 0
(16..20), `MeshDataSize` = 0 (20..24), `MeshChunkStart` = 24, the 0x14
reserved bytes 24..44 (which double as sub-mesh descriptor and vertex
data), `mDataTableCount` = 0 (44..48), and then only two of the four
`mDataSubCount` bytes (48..50, big-endian value 1): the header read runs
past the end of the buffer. -/
def bufC3 : List Nat :=
  [0x33, 0xEA, 0x00, 0x00, 0, 0, 0, 0, 0x2D, 0x00, 0x02, 0x1C,
   0, 0, 0, 0,
   0, 0, 0, 0,
   0, 0, 0, 0,
   0, 0, 0, 16,
   0, 0, 0, 16,
   0, 0, 0, 0,
   0, 0, 0, 0,
   0, 0, 0, 0,
   0, 0, 0, 0,
   0, 1]

/-- Counterexample to C3: on `bufC3` the chunk-header read would exceed
the buffer bounds (`mDataSubCount` needs bytes 48..52 of a 50-byte
buffer), yet nothing fails and the chunk is *not* abandoned: the short
read parses as sub-mesh count 1 and the chunk still contributes an object
to the collection.  No failure log is produced and no exception handler
runs — the fork handler for this situation (which would return CANCELLED,
aborting the whole import) is unreachable. -/
theorem claim3_counterexample :
    matchEnds bufC3 = [12] ∧
      bufC3.length < (forkChunkHdr bufC3 12).subCountPos + 4 ∧
      (chunkFork bufC3 12).length = 1 := by
  refine ⟨by decide, by decide, by decide⟩

/-- C3 amended: an out-of-bounds chunk-header read does not fail at all —
`int.from_bytes` accepts the short byte strings, the fields parse as the
value of whatever bytes remain (0 when none are left), nothing is logged
and nothing is fatal.  When the buffer ends at or before the count fields
(length at most `matchEnd + 32`) the sub-mesh count reads as 0 and the
chunk contributes nothing; the scan then simply continues with the next
signature match, each chunk being decoded independently. -/
theorem claim3_amended_oob_header (buf : List Nat) (e : Nat)
    (h : buf.length ≤ e + 32) : chunkFork buf e = [] := by
  have hlen : ∀ p n : Nat, (pyRead buf p n).length = min n (buf.length - p) := by
    intro p n
    simp [pyRead]
  have h1 : (readStep buf (e + 4) 4).2 = e + 4 + min 4 (buf.length - (e + 4)) := by
    simp [readStep, hlen]
  have hms : (forkChunkHdr buf e).ms = (readStep buf (readStep buf (e + 4) 4).2 4).2 := rfl
  have h2 : (readStep buf (readStep buf (e + 4) 4).2 4).2
      = (readStep buf (e + 4) 4).2 + min 4 (buf.length - (readStep buf (e + 4) 4).2) := by
    simp [readStep, hlen]
  have hbound : buf.length ≤ (forkChunkHdr buf e).ms + 20 := by
    rw [hms, h2, h1]
    omega
  have hr3 : (readStep buf ((forkChunkHdr buf e).ms + 0x14) 4)
      = ([], (forkChunkHdr buf e).ms + 0x14) := by
    have hdrop : buf.drop ((forkChunkHdr buf e).ms + 0x14) = [] :=
      List.drop_eq_nil_of_le (by omega)
    simp [readStep, pyRead, hdrop]
  have hsub : (forkChunkHdr buf e).subCount = 0 := by
    show fromBE (readStep buf (readStep buf ((forkChunkHdr buf e).ms + 0x14) 4).2 4).1 = 0
    rw [hr3]
    have hdrop : buf.drop ((forkChunkHdr buf e).ms + 0x14) = [] :=
      List.drop_eq_nil_of_le (by omega)
    simp [readStep, pyRead, hdrop]
    rfl
  show chunkSubObjs buf (forkChunkHdr buf e).ms (forkChunkHdr buf e).fdo
      (forkChunkHdr buf e).subStart (forkChunkHdr buf e).subCount = []
  rw [hsub]
  rfl

/-- Witness for C3 (amended) on the empty buffer. -/
theorem claim3_amended_oob_header_witness : chunkFork [] 0 = [] :=
  claim3_amended_oob_header [] 0 (by decide)

/-- A 32-byte vertex record (stride 32): a zero position in bytes 0..12,
and the big-endian f32 pair (0.25, 0.75) both at bytes 16..24 (the uv0
window, `stride - 16` from the record end) and at bytes 24..32 (the uv1
window, `stride - 8`).  `3E 80 00 00` is 0.25 and `3F 40 00 00` is
0.75. -/
def bufC7 : List Nat :=
  List.replicate 16 0 ++
    [0x3E, 0x80, 0x00, 0x00, 0x3F, 0x40, 0x00, 0x00,
     0x3E, 0x80, 0x00, 0x00, 0x3F, 0x40, 0x00, 0x00]

/-- C7: every vertex the fork reads stores both UV channels with the V
coordinate inverted — the raw big-endian f32 pair read at `stride - 16`
from the end of the record (uv0) and the raw pair read at `stride - 8`
(uv1, the "CM" channel) are stored as `(u, 1 - v)`.  Concretely, a vertex
whose two raw UV pairs are `(0.25, 0.75)` is stored as `(0.25, 0.25)`. -/
theorem claim7_uv_v_flip :
    (∀ (buf : List Nat) (vs stride v : Nat) (out : Vec3 × UVPair × UVPair),
        readVertexFork buf vs stride v = some out →
          ∃ u0 w0 u1 w1,
            unpack2FAt buf ((vs + v * stride + stride : Int) - 16) = some (u0, w0) ∧
              unpack2FAt buf ((vs + v * stride + stride : Int) - 8) = some (u1, w1) ∧
              out.2.1 = (u0, oneMinus w0) ∧ out.2.2 = (u1, oneMinus w1)) ∧
      readVertexFork bufC7 0 32 0
        = some ((some (mkRat 0 1), some (mkRat 0 1), some (mkRat 0 1)),
            (some (mkRat 1 4), some (mkRat 1 4)),
            (some (mkRat 1 4), some (mkRat 1 4))) := by
  constructor
  · intro buf vs stride v out hout
    unfold readVertexFork at hout
    cases hpos : unpack3F buf (vs + v * stride) with
    | none => rw [hpos] at hout; cases hout
    | some p =>
      rw [hpos] at hout
      cases huv : unpack2FAt buf ((vs + v * stride + stride : Int) - 16) with
      | none => rw [huv] at hout; cases hout
      | some uv =>
        rw [huv] at hout
        cases hcm : unpack2FAt buf ((vs + v * stride + stride : Int) - 8) with
        | none => rw [hcm] at hout; cases hout
        | some cm =>
          rw [hcm] at hout
          obtain ⟨a, b⟩ := uv
          obtain ⟨a2, b2⟩ := cm
          have hval : (p, (a, oneMinus b), (a2, oneMinus b2)) = out :=
            Option.some.inj hout
          refine ⟨a, b, a2, b2, rfl, rfl, ?_, ?_⟩
          · rw [← hval]
          · rw [← hval]
  · have hsub : oneMinus (some (mkRat 3 4)) = some (mkRat 1 4) := by
      show some ((1 : ℚ) - mkRat 3 4) = some (mkRat 1 4)
      rw [Rat.mkRat_eq_div, Rat.mkRat_eq_div]
      norm_num
    have hspine : readVertexFork bufC7 0 32 0
        = some ((some (mkRat 0 1), some (mkRat 0 1), some (mkRat 0 1)),
            (some (mkRat 1 4), oneMinus (some (mkRat 3 4))),
            (some (mkRat 1 4), oneMinus (some (mkRat 3 4)))) := by rfl
    rw [hspine, hsub]

end SimpGame
